import Mathlib

/-!
Verification of the redirection.io Fastly worker's action-application
pipeline, as a shallow embedding of the Rust sources.

The embedding follows the current implementation in
`src/src/rio/application.rs` (functions `Application::proxy`,
`Application::get_action`, `Application::log`, `decode_original_body`) and
`src/src/rio/error.rs` (`InternalError`), with the request routing taken
from the `main` function in `src/src/main.rs` (the arm that degrades to a
plain origin dispatch when no action could be resolved).

Modelling conventions:
* Machine integers (`u16` status codes) are `Nat`; no arithmetic near the
  overflow boundary occurs in this code.
* HTTP header values, as seen through fastly's `HeaderValue::to_str`, are
  either valid text (`HVal.text`) or opaque invalid-UTF-8 bytes
  (`HVal.bytes`).  Calling `.to_str().unwrap()` on an invalid value is a
  Rust panic, modelled by the `Outcome.panic` result.
* Header names are modelled as already-normalized lowercase strings
  (fastly's `HeaderName` normalizes names on ingestion).
* Bodies are byte lists (`List Nat`); Rust `String`s are their UTF-8 bytes,
  so `format!("{}{}", a, b)` is list append.
* External collaborators (the fastly origin `send`, libflate's gzip
  decoder, `String::from_utf8` validation, the wall clock, serde and the
  log transport) are parameters collected in environment structures.
* The opaque `Action` capability object is a structure of functions with
  the four operations the worker calls; the calls the pipeline makes are
  recorded in an event trace so call-counting properties can be stated.
-/

namespace FastlyWorker

/-- Substring containment, modelling Rust's `str::contains` on string
patterns: `pat` occurs contiguously inside `s`. -/
def strContains (s pat : String) : Bool :=
  s.data.tails.any fun t => pat.data.isPrefixOf t

/-- Header value as seen through fastly's `HeaderValue::to_str`: either
valid text, or opaque bytes on which `to_str` errors (invalid UTF-8). -/
inductive HVal where
  | text (s : String)
  | bytes (b : List Nat)
deriving DecidableEq

/-- Raw header list of a fastly request or response (name/value pairs,
names pre-normalized to lowercase). -/
abbrev RawHeaders := List (String × HVal)

/-- The `redirectionio::http::Header` struct: a name/value pair whose
value is valid text. -/
structure Header where
  name : String
  value : String
deriving DecidableEq

/-- Fastly request object (the fields the worker reads). -/
structure Request where
  method : String
  url : String
  headers : RawHeaders
deriving DecidableEq

/-- Fastly response object (the fields the worker reads and writes). -/
structure Response where
  status : Nat
  headers : RawHeaders
  body : List Nat
deriving DecidableEq

/-- Events recording the externally visible calls the pipeline makes, in
program order: `Action` queries, the origin dispatch, error logging via
the fastly logger, and the log POST to the redirection.io API. -/
inductive Event where
  | statusQuery (arg : Nat)
  | originDispatch
  | headerFilter (status : Nat)
  | bodyFilterCreate (status : Nat)
  | errorLog
  | logPost
deriving DecidableEq

/-- Result of running the proxy pipeline: a Rust panic, a propagated
origin transport error, or a response together with the backend status
code and the trace of collaborator calls. -/
inductive Outcome where
  | panic
  | sendErr
  | ok (response : Response) (backendStatus : Nat) (trace : List Event)
deriving DecidableEq

/-- Body filter instance obtained from `Action::create_filter_body`
(`rio/application.rs` line 223).  The Rust object is stateful: `filter`
is fed the whole decoded body and `end` then returns buffered trailing
output; both are captured by one function from the fed body to the pair
(filter output, end output). -/
structure BodyFilter where
  run : List Nat → List Nat × List Nat

/-- The opaque `redirectionio::action::Action` capability object, with
the four operations the worker calls by contract. -/
structure Action where
  get_status_code : Nat → Nat
  filter_headers : List Header → Nat → Bool → List Header
  create_filter_body : Nat → Option BodyFilter
  should_log_request : Bool → Nat → Bool

/-- Application configuration (`rio/configuration.rs`). -/
structure App where
  backend_name : String
  token : String
  instance_name : String
  add_rule_ids_header : Bool
  agent_version : String

/-- External collaborators of the proxy pipeline: the fastly origin
dispatch, `String::from_utf8` validation and libflate's gzip decoder. -/
structure Env where
  send : Request → Except Unit Response
  utf8Valid : List Nat → Bool
  gzipDecode : List Nat → Option (List Nat)

/-- Error kinds of `src/src/rio/error.rs` (`InternalError`); the display
message carried by `DecodingFailed` is dropped, as it is only used for
logging. -/
inductive InternalError where
  | EncodingNotSupported
  | DecodingFailed
deriving DecidableEq

deriving instance DecidableEq for Except

/-- Lookup of the first header value for a (lowercase) name, modelling
fastly's `get_header`. -/
def lookupHeader (hs : RawHeaders) (n : String) : Option HVal :=
  (hs.find? fun p => p.1 == n).map Prod.snd

/-- Replacement of all values of a header by one value, modelling
fastly's `set_header`. -/
def setHeader (hs : RawHeaders) (n : String) (v : HVal) : RawHeaders :=
  (hs.filter fun p => p.1 != n) ++ [(n, v)]

/-- Removal of a header, modelling fastly's `remove_header`. -/
def removeHeader (hs : RawHeaders) (n : String) : RawHeaders :=
  hs.filter fun p => p.1 != n

/-- Collection of the text-valued headers of a response into a
`Vec<Header>`, dropping (with `continue`) every header whose value is not
valid UTF-8 — the loops at `rio/application.rs` lines 187-201 and
268-282. -/
def collectTextHeaders : RawHeaders → List Header
  | [] => []
  | (n, HVal.text s) :: rest => ⟨n, s⟩ :: collectTextHeaders rest
  | (_, HVal.bytes _) :: rest => collectTextHeaders rest

/-- Body decoding, `decode_original_body` at `rio/application.rs` lines
329-351.  Returns `none` for the Rust panic of
`encoding.to_str().unwrap()` on an invalid-UTF-8 `Content-Encoding`
value; otherwise: no `Content-Encoding` means UTF-8 validation of the raw
bytes, value `"gzip"` means gzip decompression followed by UTF-8
validation, and any other value is the explicit
`InternalError::EncodingNotSupported`. -/
def decode_original_body (env : Env) (response : Response) :
    Option (Except InternalError (List Nat)) :=
  match lookupHeader response.headers "content-encoding" with
  | none =>
      some (if env.utf8Valid response.body then Except.ok response.body
            else Except.error InternalError.DecodingFailed)
  | some (HVal.bytes _) => none
  | some (HVal.text v) =>
      if v = "gzip" then
        some (match env.gzipDecode response.body with
          | none => Except.error InternalError.DecodingFailed
          | some d =>
              if env.utf8Valid d then Except.ok d
              else Except.error InternalError.DecodingFailed)
      else some (Except.error InternalError.EncodingNotSupported)

/-- Accept-Encoding gate of `rio/application.rs` lines 158-166: `none`
models the panic of `.to_str().unwrap()` on an invalid-UTF-8 value;
otherwise the flag is whether the request's `Accept-Encoding` value
contains `"gzip"`. -/
def aeGate (req : Request) : Option Bool :=
  match lookupHeader req.headers "accept-encoding" with
  | some (HVal.bytes _) => none
  | some (HVal.text s) => some (strContains s "gzip")
  | none => some false

/-- Lowercasing of a string, modelling Rust's `to_lowercase` on the
ASCII header values this worker compares (defined over the character
list so that it evaluates by kernel reduction). -/
def strToLower (s : String) : String :=
  String.mk (s.data.map Char.toLower)

/-- Content-Type gate of `rio/application.rs` lines 209-220: `none`
models the panic of `.to_str().unwrap()` on an invalid-UTF-8 value;
otherwise the flag is whether the response's `Content-Type` value,
lowercased, contains `"utf-8"`. -/
def ctGate (response : Response) : Option Bool :=
  match lookupHeader response.headers "content-type" with
  | some (HVal.bytes _) => none
  | some (HVal.text s) => some (strContains (strToLower s) "utf-8")
  | none => some false

/-- Status override plus header filtering, `rio/application.rs` lines
178-207: capture the backend status code, query the post-response status
override and apply it when non-zero, collect the text-valued response
headers, pass them with the backend status code to
`Action::filter_headers`, and set every filtered header back on the
response. -/
def responseAfterHeaders (app : App) (action : Action) (resp : Response) :
    Response :=
  let bsc := resp.status
  let scar := action.get_status_code bsc
  let resp1 := if scar ≠ 0 then { resp with status := scar } else resp
  let hs := action.filter_headers (collectTextHeaders resp1.headers) bsc
      app.add_rule_ids_header
  hs.foldl (fun r h => { r with headers := setHeader r.headers h.name (HVal.text h.value) }) resp1

/-- Concatenation of a body filter's output with its `end()` output,
`rio/application.rs` lines 234-239. -/
def runFilter (bf : BodyFilter) (bodyOrig : List Nat) : List Nat :=
  let p := bf.run bodyOrig
  if p.2.isEmpty then p.1 else p.1 ++ p.2

/-- Trace of collaborator calls made by the pipeline up to and including
header filtering. -/
def baseTrace (dispatched : Bool) (bsc : Nat) : List Event :=
  Event.statusQuery 0 ::
    ((if dispatched then [Event.originDispatch] else []) ++
      [Event.statusQuery bsc, Event.headerFilter bsc])

/-- Body rewriting stage, `rio/application.rs` lines 222-251 (inside the
non-HEAD branch): obtain a body filter keyed by the backend status code;
if there is one, decode the original body — on decode failure log the
error and return the response untouched; on success set the filtered body
and, when the request accepted gzip, drop `Content-Encoding` and attach
the fabric compression hint. -/
def bodyStage (env : Env) (ae : Bool) (action : Action) (bsc : Nat)
    (response : Response) (tr : List Event) : Outcome :=
  let tr1 := tr ++ [Event.bodyFilterCreate bsc]
  match action.create_filter_body bsc with
  | none => Outcome.ok response bsc tr1
  | some bf =>
    match decode_original_body env response with
    | none => Outcome.panic
    | some (Except.error _) => Outcome.ok response bsc (tr1 ++ [Event.errorLog])
    | some (Except.ok bodyOrig) =>
      let response := { response with body := runFilter bf bodyOrig }
      let hintHeaders :=
        setHeader (removeHeader response.headers "content-encoding")
          "x-compress-hint" (HVal.text "on")
      let response :=
        if ae then { response with headers := hintHeaders } else response
      Outcome.ok response bsc tr1

/-- Post-response stages of `Application::proxy`, `rio/application.rs`
lines 178-253: status override and header filtering, then the
content-type gate and the HEAD gate in front of the body stage. -/
def respStage (env : Env) (app : App) (ae : Bool) (method : String)
    (action : Action) (resp0 : Response) (dispatched : Bool) : Outcome :=
  let bsc := resp0.status
  let response := responseAfterHeaders app action resp0
  let tr := baseTrace dispatched bsc
  match ctGate response with
  | none => Outcome.panic
  | some pass =>
    if pass then
      if method ≠ "HEAD" then bodyStage env ae action bsc response tr
      else Outcome.ok response bsc tr
    else Outcome.ok response bsc tr

/-- Forcing of the request's `Accept-Encoding` header to `"gzip"` when
the gate matched, `rio/application.rs` line 162. -/
def aeAdjust (req : Request) (ae : Bool) : Request :=
  if ae then
    { req with headers := setHeader req.headers "accept-encoding" (HVal.text "gzip") }
  else req

/-- The full `Application::proxy`, `rio/application.rs` lines 155-254:
query the pre-response status override, evaluate the Accept-Encoding
gate (forcing the header to `"gzip"` when it matched), then either
dispatch to the origin backend or synthesize a response carrying only the
override status, and run the post-response stages. -/
def proxy (env : Env) (app : App) (req : Request) (action : Action) :
    Outcome :=
  let scbr := action.get_status_code 0
  match aeGate req with
  | none => Outcome.panic
  | some ae =>
    let req1 := aeAdjust req ae
    if scbr = 0 then
      match env.send req1 with
      | Except.error _ => Outcome.sendErr
      | Except.ok resp => respStage env app ae req.method action resp true
    else
      respStage env app ae req.method action
        { status := scbr, headers := [], body := [] } false

/-- The `redirectionio::http::Request` canonical request (the fields the
worker reads when building the log record). -/
structure RioRequest where
  url : String
  method : Option String
  headers : List Header
  remote_addr : Option String
deriving DecidableEq

/-- Response of the decision service's `/action` endpoint as the worker
reads it: status plus body bytes. -/
structure ApiResponse where
  status : Nat
  body : List Nat
deriving DecidableEq

/-- External collaborators of `Application::get_action`: serde
serialization of the canonical request, the transport to the decision
service, and serde deserialization of the returned action. -/
structure GetActionEnv where
  serializeOk : Bool
  apiResponse : Except Unit ApiResponse
  deserialize : List Nat → Option Action

/-- Action resolution, `Application::get_action` at
`rio/application.rs` lines 83-153: serialization failure, transport
failure, a non-200 decision-service status, and deserialization failure
each degrade to `none` (after logging). -/
def get_action (genv : GetActionEnv) : Option Action :=
  if genv.serializeOk = false then none
  else
    match genv.apiResponse with
    | Except.error _ => none
    | Except.ok resp =>
      if resp.status ≠ 200 then none
      else genv.deserialize resp.body

/-- Result of routing one request through the worker. -/
inductive RouteResult where
  | panic
  | sendErr
  | response (r : Response) (trace : List Event)
deriving DecidableEq

/-- Request routing of `main` in `src/src/main.rs` lines 78-89, from the
point where the canonical request has been built: when action resolution
yields no action, the original request is sent verbatim to the configured
origin backend and nothing else runs; otherwise the proxy pipeline runs
with the resolved action. -/
def route (genv : GetActionEnv) (env : Env) (app : App) (req : Request) :
    RouteResult :=
  match get_action genv with
  | none =>
    match env.send req with
    | Except.error _ => RouteResult.sendErr
    | Except.ok resp => RouteResult.response resp [Event.originDispatch]
  | some action =>
    match proxy env app req action with
    | Outcome.panic => RouteResult.panic
    | Outcome.sendErr => RouteResult.sendErr
    | Outcome.ok r _ tr => RouteResult.response r tr

/-- The `redirectionio::api::Log` record as assembled by
`Application::log` (`rio/application.rs` lines 288-300): canonical
request, final response status, collected response headers, presence of
the action, agent identifier, timestamp and client address. -/
structure LogRecord where
  request : RioRequest
  status_code : Nat
  response_headers : List Header
  has_action : Bool
  agent : String
  timestamp : Nat
  client_addr : String
deriving DecidableEq

/-- External collaborators of `Application::log`: the wall clock, serde
serialization of the record and the log transport. -/
structure LogEnv where
  now : Nat
  encodeLogOk : Bool
  logPost : Except Unit Unit

/-- Log emission, `Application::log` at `rio/application.rs` lines
256-326: ask the action whether to log (proxy mode `true`); on refusal
return at once — no record is built and no network call is made.
Otherwise collect the text-valued response headers, build the record,
serialize it (a serialization failure returns silently) and POST it to
the decision service, logging a transport failure locally. -/
def logEmit (lenv : LogEnv) (app : App) (response : Response) (bsc : Nat)
    (rio_request : RioRequest) (action : Action) :
    Option LogRecord × List Event :=
  if action.should_log_request true bsc = false then (none, [])
  else
    let response_headers := collectTextHeaders response.headers
    let lr : LogRecord :=
      { request := rio_request
        status_code := response.status
        response_headers := response_headers
        has_action := true
        agent := "redirectionio-fastly:" ++ app.agent_version
        timestamp := lenv.now
        client_addr := rio_request.remote_addr.getD "" }
    if lenv.encodeLogOk = false then (some lr, [])
    else
      match lenv.logPost with
      | Except.error _ => (some lr, [Event.logPost, Event.errorLog])
      | Except.ok _ => (some lr, [Event.logPost])

/-- Recognizer for header-filter call events. -/
def isHeaderFilterEv : Event → Bool
  | Event.headerFilter _ => true
  | _ => false

/-- Recognizer for status-override query events. -/
def isStatusQueryEv : Event → Bool
  | Event.statusQuery _ => true
  | _ => false

theorem foldlSetHeader_body (hs : List Header) (r : Response) :
    (hs.foldl (fun r h => { r with headers := setHeader r.headers h.name (HVal.text h.value) }) r).body
      = r.body := by
  induction hs generalizing r with
  | nil => rfl
  | cons h t ih => simpa using ih _

theorem foldlSetHeader_status (hs : List Header) (r : Response) :
    (hs.foldl (fun r h => { r with headers := setHeader r.headers h.name (HVal.text h.value) }) r).status
      = r.status := by
  induction hs generalizing r with
  | nil => rfl
  | cons h t ih => simpa using ih _

theorem responseAfterHeaders_body (app : App) (action : Action) (resp : Response) :
    (responseAfterHeaders app action resp).body = resp.body := by
  unfold responseAfterHeaders
  rw [foldlSetHeader_body]
  split <;> rfl

theorem responseAfterHeaders_status (app : App) (action : Action) (resp : Response) :
    (responseAfterHeaders app action resp).status
      = if action.get_status_code resp.status ≠ 0 then action.get_status_code resp.status
        else resp.status := by
  unfold responseAfterHeaders
  rw [foldlSetHeader_status]
  split <;> simp_all

theorem proxy_ae_panic (env : Env) (app : App) (req : Request) (action : Action)
    (h : aeGate req = none) : proxy env app req action = Outcome.panic := by
  unfold proxy
  rw [h]

theorem proxy_dispatch (env : Env) (app : App) (req : Request) (action : Action)
    (ae : Bool) (origin : Response)
    (hae : aeGate req = some ae)
    (hpre : action.get_status_code 0 = 0)
    (hsend : env.send (aeAdjust req ae) = Except.ok origin) :
    proxy env app req action = respStage env app ae req.method action origin true := by
  unfold proxy
  rw [hae]
  simp [hpre, hsend]

theorem proxy_short (env : Env) (app : App) (req : Request) (action : Action)
    (ae : Bool)
    (hae : aeGate req = some ae)
    (hpre : action.get_status_code 0 ≠ 0) :
    proxy env app req action
      = respStage env app ae req.method action
          { status := action.get_status_code 0, headers := [], body := [] } false := by
  unfold proxy
  rw [hae]
  simp [hpre]

theorem respStage_gate_fail (env : Env) (app : App) (ae : Bool) (m : String)
    (action : Action) (resp0 : Response) (d : Bool)
    (h : ctGate (responseAfterHeaders app action resp0) = some false) :
    respStage env app ae m action resp0 d
      = Outcome.ok (responseAfterHeaders app action resp0) resp0.status
          (baseTrace d resp0.status) := by
  simp [respStage, h]

theorem respStage_head (env : Env) (app : App) (ae : Bool)
    (action : Action) (resp0 : Response) (d : Bool)
    (h : ctGate (responseAfterHeaders app action resp0) = some true) :
    respStage env app ae "HEAD" action resp0 d
      = Outcome.ok (responseAfterHeaders app action resp0) resp0.status
          (baseTrace d resp0.status) := by
  simp [respStage, h]

theorem respStage_to_body (env : Env) (app : App) (ae : Bool) (m : String)
    (action : Action) (resp0 : Response) (d : Bool)
    (h : ctGate (responseAfterHeaders app action resp0) = some true)
    (hm : m ≠ "HEAD") :
    respStage env app ae m action resp0 d
      = bodyStage env ae action resp0.status (responseAfterHeaders app action resp0)
          (baseTrace d resp0.status) := by
  simp [respStage, h, hm]

theorem bodyStage_no_filter (env : Env) (ae : Bool) (action : Action) (bsc : Nat)
    (resp : Response) (tr : List Event)
    (h : action.create_filter_body bsc = none) :
    bodyStage env ae action bsc resp tr
      = Outcome.ok resp bsc (tr ++ [Event.bodyFilterCreate bsc]) := by
  unfold bodyStage
  rw [h]

theorem bodyStage_decode_error (env : Env) (ae : Bool) (action : Action) (bsc : Nat)
    (resp : Response) (tr : List Event) (bf : BodyFilter) (e : InternalError)
    (hbf : action.create_filter_body bsc = some bf)
    (hdec : decode_original_body env resp = some (Except.error e)) :
    bodyStage env ae action bsc resp tr
      = Outcome.ok resp bsc (tr ++ [Event.bodyFilterCreate bsc, Event.errorLog]) := by
  unfold bodyStage
  rw [hbf, hdec]
  simp

theorem bodyStage_decode_ok_noae (env : Env) (action : Action) (bsc : Nat)
    (resp : Response) (tr : List Event) (bf : BodyFilter) (b : List Nat)
    (hbf : action.create_filter_body bsc = some bf)
    (hdec : decode_original_body env resp = some (Except.ok b)) :
    bodyStage env false action bsc resp tr
      = Outcome.ok { resp with body := runFilter bf b } bsc
          (tr ++ [Event.bodyFilterCreate bsc]) := by
  unfold bodyStage
  rw [hbf, hdec]
  simp

theorem bodyStage_decode_ok_ae (env : Env) (action : Action) (bsc : Nat)
    (resp : Response) (tr : List Event) (bf : BodyFilter) (b : List Nat)
    (hbf : action.create_filter_body bsc = some bf)
    (hdec : decode_original_body env resp = some (Except.ok b)) :
    bodyStage env true action bsc resp tr
      = Outcome.ok
          { resp with
              body := runFilter bf b
              headers := setHeader (removeHeader resp.headers "content-encoding")
                "x-compress-hint" (HVal.text "on") } bsc
          (tr ++ [Event.bodyFilterCreate bsc]) := by
  unfold bodyStage
  rw [hbf, hdec]
  simp

theorem baseTrace_countP_hf (d : Bool) (bsc : Nat) :
    (baseTrace d bsc).countP isHeaderFilterEv = 1 := by
  cases d <;>
    simp [baseTrace, List.countP_cons, List.countP_append, isHeaderFilterEv]

theorem baseTrace_countP_sq (d : Bool) (bsc : Nat) :
    (baseTrace d bsc).countP isStatusQueryEv = 2 := by
  cases d <;>
    simp [baseTrace, List.countP_cons, List.countP_append, isStatusQueryEv]

theorem baseTrace_mem_hf (d : Bool) (bsc : Nat) :
    Event.headerFilter bsc ∈ baseTrace d bsc := by
  cases d <;> simp [baseTrace]

theorem baseTrace_mem_sq0 (d : Bool) (bsc : Nat) :
    Event.statusQuery 0 ∈ baseTrace d bsc := by
  cases d <;> simp [baseTrace]

theorem baseTrace_mem_sqb (d : Bool) (bsc : Nat) :
    Event.statusQuery bsc ∈ baseTrace d bsc := by
  cases d <;> simp [baseTrace]

theorem baseTrace_no_dispatch (bsc : Nat) :
    Event.originDispatch ∉ baseTrace false bsc := by
  simp [baseTrace]

theorem bodyStage_ok_inv {env : Env} {ae : Bool} {action : Action} {bsc1 : Nat}
    {resp : Response} {tr : List Event} {r : Response} {bsc : Nat} {tr2 : List Event}
    (h : bodyStage env ae action bsc1 resp tr = Outcome.ok r bsc tr2) :
    bsc = bsc1 ∧ r.status = resp.status ∧
    ∃ rest, tr2 = tr ++ rest ∧ rest.countP isHeaderFilterEv = 0 ∧
      rest.countP isStatusQueryEv = 0 ∧ Event.originDispatch ∉ rest := by
  unfold bodyStage at h
  split at h
  · simp only [Outcome.ok.injEq] at h
    obtain ⟨h1, h2, h3⟩ := h
    refine ⟨h2.symm, by rw [← h1], [Event.bodyFilterCreate bsc1], h3.symm, ?_, ?_, ?_⟩ <;>
      simp [List.countP_cons, isHeaderFilterEv, isStatusQueryEv]
  · split at h
    · exact absurd h (by simp)
    · simp only [Outcome.ok.injEq] at h
      obtain ⟨h1, h2, h3⟩ := h
      refine ⟨h2.symm, by rw [← h1], [Event.bodyFilterCreate bsc1, Event.errorLog],
        by rw [← h3]; simp, ?_, ?_, ?_⟩ <;>
        simp [List.countP_cons, isHeaderFilterEv, isStatusQueryEv]
    · simp only [Outcome.ok.injEq] at h
      obtain ⟨h1, h2, h3⟩ := h
      refine ⟨h2.symm, ?_, [Event.bodyFilterCreate bsc1], h3.symm, ?_, ?_, ?_⟩
      · rw [← h1]
        cases ae <;> simp
      all_goals simp [List.countP_cons, isHeaderFilterEv, isStatusQueryEv]

theorem respStage_gate_panic (env : Env) (app : App) (ae : Bool) (m : String)
    (action : Action) (resp0 : Response) (d : Bool)
    (h : ctGate (responseAfterHeaders app action resp0) = none) :
    respStage env app ae m action resp0 d = Outcome.panic := by
  simp [respStage, h]

theorem respStage_ok_inv {env : Env} {app : App} {ae : Bool} {m : String}
    {action : Action} {resp0 : Response} {d : Bool} {r : Response} {bsc : Nat}
    {tr : List Event}
    (h : respStage env app ae m action resp0 d = Outcome.ok r bsc tr) :
    bsc = resp0.status ∧
    r.status = (responseAfterHeaders app action resp0).status ∧
    ∃ rest, tr = baseTrace d resp0.status ++ rest ∧
      rest.countP isHeaderFilterEv = 0 ∧ rest.countP isStatusQueryEv = 0 ∧
      Event.originDispatch ∉ rest := by
  rcases hct : ctGate (responseAfterHeaders app action resp0) with _ | pass
  · rw [respStage_gate_panic env app ae m action resp0 d hct] at h
    exact absurd h (by simp)
  · cases pass with
    | false =>
      rw [respStage_gate_fail env app ae m action resp0 d hct] at h
      simp only [Outcome.ok.injEq] at h
      obtain ⟨h1, h2, h3⟩ := h
      exact ⟨h2.symm, by rw [← h1], [], by rw [← h3]; simp, by simp, by simp, by simp⟩
    | true =>
      by_cases hm : m = "HEAD"
      · subst hm
        rw [respStage_head env app ae action resp0 d hct] at h
        simp only [Outcome.ok.injEq] at h
        obtain ⟨h1, h2, h3⟩ := h
        exact ⟨h2.symm, by rw [← h1], [], by rw [← h3]; simp, by simp, by simp, by simp⟩
      · rw [respStage_to_body env app ae m action resp0 d hct hm] at h
        exact bodyStage_ok_inv h

theorem proxy_send_error (env : Env) (app : App) (req : Request) (action : Action)
    (ae : Bool) (e : Unit)
    (hae : aeGate req = some ae)
    (hpre : action.get_status_code 0 = 0)
    (hsend : env.send (aeAdjust req ae) = Except.error e) :
    proxy env app req action = Outcome.sendErr := by
  unfold proxy
  rw [hae]
  simp [hpre, hsend]

theorem proxy_ok_inv {env : Env} {app : App} {req : Request} {action : Action}
    {r : Response} {bsc : Nat} {tr : List Event}
    (h : proxy env app req action = Outcome.ok r bsc tr) :
    ∃ ae resp0 d, aeGate req = some ae ∧
      respStage env app ae req.method action resp0 d = Outcome.ok r bsc tr ∧
      (if action.get_status_code 0 = 0
       then d = true ∧ env.send (aeAdjust req ae) = Except.ok resp0
       else d = false ∧
         resp0 = { status := action.get_status_code 0, headers := [], body := [] }) := by
  rcases hae : aeGate req with _ | ae
  · rw [proxy_ae_panic env app req action hae] at h
    exact absurd h (by simp)
  · by_cases hz : action.get_status_code 0 = 0
    · rcases hsend : env.send (aeAdjust req ae) with e | resp
      · rw [proxy_send_error env app req action ae e hae hz hsend] at h
        exact absurd h (by simp)
      · rw [proxy_dispatch env app req action ae resp hae hz hsend] at h
        exact ⟨ae, resp, true, rfl, h, by simp [hz, hsend]⟩
    · rw [proxy_short env app req action ae hae hz] at h
      exact ⟨ae, _, false, rfl, h, by simp [hz]⟩

theorem logEmit_events_small (lenv : LogEnv) (app : App) (resp : Response)
    (bsc : Nat) (rq : RioRequest) (action : Action) :
    ((logEmit lenv app resp bsc rq action).2).countP isHeaderFilterEv = 0 ∧
    ((logEmit lenv app resp bsc rq action).2).countP isStatusQueryEv = 0 := by
  unfold logEmit
  split
  · simp
  · split
    · simp
    · split <;> simp [List.countP_cons, isHeaderFilterEv, isStatusQueryEv]

theorem respStage_ok_resp_id {env : Env} {app : App} {ae : Bool} {m : String}
    {action : Action} {resp0 : Response} {d : Bool} {r : Response} {bsc : Nat}
    {tr : List Event}
    (hg : m = "HEAD" ∨ ctGate (responseAfterHeaders app action resp0) = some false)
    (h : respStage env app ae m action resp0 d = Outcome.ok r bsc tr) :
    r = responseAfterHeaders app action resp0 := by
  rcases hg with hm | hct
  · subst hm
    rcases hct2 : ctGate (responseAfterHeaders app action resp0) with _ | pass
    · rw [respStage_gate_panic env app ae "HEAD" action resp0 d hct2] at h
      exact absurd h (by simp)
    · cases pass with
      | false =>
        rw [respStage_gate_fail env app ae "HEAD" action resp0 d hct2] at h
        simp only [Outcome.ok.injEq] at h
        exact h.1.symm
      | true =>
        rw [respStage_head env app ae action resp0 d hct2] at h
        simp only [Outcome.ok.injEq] at h
        exact h.1.symm
  · rw [respStage_gate_fail env app ae m action resp0 d hct] at h
    simp only [Outcome.ok.injEq] at h
    exact h.1.symm

/-- Claim C1: for every response whose (possibly filtered) content-type
header does not case-insensitively contain `"utf-8"`, and for every
request whose method is `HEAD`, the proxy operation returns the response
with its body byte-for-byte equal to the body received from origin — no
body rewriting is attempted. -/
theorem body_passthrough_when_not_text_or_head
    (env : Env) (app : App) (req : Request) (action : Action) (origin : Response)
    (hsend : env.send = fun _ => Except.ok origin)
    (hpre : action.get_status_code 0 = 0)
    (hgate : req.method = "HEAD" ∨
      ctGate (responseAfterHeaders app action origin) = some false)
    (r : Response) (bsc : Nat) (tr : List Event)
    (hrun : proxy env app req action = Outcome.ok r bsc tr) :
    r.body = origin.body := by
  obtain ⟨ae, resp0, d, hae, hresp, hcond⟩ := proxy_ok_inv hrun
  rw [if_pos hpre] at hcond
  obtain ⟨hd, hsend0⟩ := hcond
  rw [hsend] at hsend0
  simp only [Except.ok.injEq] at hsend0
  subst hsend0
  rw [respStage_ok_resp_id hgate hresp, responseAfterHeaders_body]

/-- Concrete application configuration used by the witnesses. -/
def wApp : App :=
  { backend_name := "origin", token := "t", instance_name := "i",
    add_rule_ids_header := false, agent_version := "dev" }

/-- Concrete origin response with a binary content type. -/
def wOriginA : Response :=
  { status := 200,
    headers := [("content-type", HVal.text "application/octet-stream")],
    body := [1, 2, 3] }

/-- Concrete environment dispatching to `wOriginA`. -/
def wEnvA : Env :=
  { send := fun _ => Except.ok wOriginA,
    utf8Valid := fun _ => true,
    gzipDecode := fun _ => none }

/-- Concrete action performing no override, no header edit and no body
rewrite. -/
def wActA : Action :=
  { get_status_code := fun _ => 0,
    filter_headers := fun hs _ _ => hs,
    create_filter_body := fun _ => none,
    should_log_request := fun _ _ => true }

/-- Concrete GET request with no headers. -/
def wReqA : Request :=
  { method := "GET", url := "http://example.com/", headers := [] }

/-- Response produced by the pipeline on the witness inputs of C1. -/
def wRespA : Response :=
  { status := 200,
    headers := [("content-type", HVal.text "application/octet-stream")],
    body := [1, 2, 3] }

/-- Witness for C1 at concrete inputs: a binary-typed origin body passes
through byte-for-byte. -/
theorem body_passthrough_when_not_text_or_head_witness :
    proxy wEnvA wApp wReqA wActA
      = Outcome.ok wRespA 200
          [Event.statusQuery 0, Event.originDispatch,
            Event.statusQuery 200, Event.headerFilter 200]
    ∧ wRespA.body = wOriginA.body := by
  refine ⟨by decide, ?_⟩
  exact body_passthrough_when_not_text_or_head wEnvA wApp wReqA wActA wOriginA
    rfl rfl (Or.inr (by decide)) wRespA 200
    [Event.statusQuery 0, Event.originDispatch,
      Event.statusQuery 200, Event.headerFilter 200] (by decide)

/-- Claim C2: when body decoding fails, the proxy does not abort the
request — it logs the failure and returns the response with its original,
undecoded body, the already-applied header filtering left standing. -/
theorem decode_failure_keeps_original_body
    (env : Env) (app : App) (req : Request) (action : Action) (origin : Response)
    (ae : Bool) (bf : BodyFilter) (e : InternalError)
    (hae : aeGate req = some ae)
    (hsend : env.send = fun _ => Except.ok origin)
    (hpre : action.get_status_code 0 = 0)
    (hct : ctGate (responseAfterHeaders app action origin) = some true)
    (hm : req.method ≠ "HEAD")
    (hbf : action.create_filter_body origin.status = some bf)
    (hdec : decode_original_body env (responseAfterHeaders app action origin)
        = some (Except.error e)) :
    proxy env app req action
      = Outcome.ok (responseAfterHeaders app action origin) origin.status
          (baseTrace true origin.status
            ++ [Event.bodyFilterCreate origin.status, Event.errorLog])
    ∧ (responseAfterHeaders app action origin).body = origin.body
    ∧ Event.errorLog ∈ baseTrace true origin.status
        ++ [Event.bodyFilterCreate origin.status, Event.errorLog] := by
  refine ⟨?_, responseAfterHeaders_body app action origin, by simp⟩
  rw [proxy_dispatch env app req action ae origin hae hpre (by rw [hsend])]
  rw [respStage_to_body env app ae req.method action origin true hct hm]
  exact bodyStage_decode_error env ae action origin.status _ _ bf e hbf hdec

/-- Concrete origin response: text content type, body invalid as UTF-8. -/
def wOriginB : Response :=
  { status := 200,
    headers := [("content-type", HVal.text "text/html; charset=utf-8")],
    body := [255] }

/-- Concrete environment on which UTF-8 validation of `[255]` fails. -/
def wEnvB : Env :=
  { send := fun _ => Except.ok wOriginB,
    utf8Valid := fun b => decide (b ≠ [255]),
    gzipDecode := fun _ => none }

/-- Concrete body filter echoing its input. -/
def wBF : BodyFilter := { run := fun s => (s, []) }

/-- Concrete action supplying a body filter. -/
def wActB : Action :=
  { get_status_code := fun _ => 0,
    filter_headers := fun hs _ _ => hs,
    create_filter_body := fun _ => some wBF,
    should_log_request := fun _ _ => true }

/-- Witness for C2: a response whose body fails UTF-8 validation comes
back with the original body and an error-log event, not an abort. -/
theorem decode_failure_keeps_original_body_witness :
    proxy wEnvB wApp wReqA wActB
      = Outcome.ok (responseAfterHeaders wApp wActB wOriginB) 200
          (baseTrace true 200 ++ [Event.bodyFilterCreate 200, Event.errorLog])
    ∧ (responseAfterHeaders wApp wActB wOriginB).body = wOriginB.body
    ∧ Event.errorLog ∈ baseTrace true 200
        ++ [Event.bodyFilterCreate 200, Event.errorLog] :=
  decode_failure_keeps_original_body wEnvB wApp wReqA wActB wOriginB false wBF
    InternalError.DecodingFailed (by decide) rfl rfl (by decide) (by decide)
    rfl (by decide)

/-- Claim C3: a `Content-Encoding` value other than `"gzip"` (for example
`"br"`) makes body decoding report the explicit unsupported-encoding
failure, never silently treating the body as decoded; end to end, with a
text content type the final body then equals the untouched origin body. -/
theorem unsupported_encoding_explicit_failure :
    (∀ (env : Env) (resp : Response) (v : String),
      lookupHeader resp.headers "content-encoding" = some (HVal.text v) →
      v ≠ "gzip" →
      decode_original_body env resp
        = some (Except.error InternalError.EncodingNotSupported))
    ∧ (∀ (env : Env) (app : App) (req : Request) (action : Action)
        (origin : Response) (ae : Bool) (bf : BodyFilter) (v : String),
      aeGate req = some ae →
      env.send = (fun _ => Except.ok origin) →
      action.get_status_code 0 = 0 →
      ctGate (responseAfterHeaders app action origin) = some true →
      req.method ≠ "HEAD" →
      action.create_filter_body origin.status = some bf →
      lookupHeader (responseAfterHeaders app action origin).headers
          "content-encoding" = some (HVal.text v) →
      v ≠ "gzip" →
      proxy env app req action
        = Outcome.ok (responseAfterHeaders app action origin) origin.status
            (baseTrace true origin.status
              ++ [Event.bodyFilterCreate origin.status, Event.errorLog])
        ∧ (responseAfterHeaders app action origin).body = origin.body) := by
  have hpart1 : ∀ (env : Env) (resp : Response) (v : String),
      lookupHeader resp.headers "content-encoding" = some (HVal.text v) →
      v ≠ "gzip" →
      decode_original_body env resp
        = some (Except.error InternalError.EncodingNotSupported) := by
    intro env resp v henc hv
    unfold decode_original_body
    rw [henc]
    simp [hv]
  refine ⟨hpart1, ?_⟩
  intro env app req action origin ae bf v hae hsend hpre hct hm hbf henc hv
  refine ⟨?_, responseAfterHeaders_body app action origin⟩
  rw [proxy_dispatch env app req action ae origin hae hpre (by rw [hsend])]
  rw [respStage_to_body env app ae req.method action origin true hct hm]
  exact bodyStage_decode_error env ae action origin.status _ _ bf
    InternalError.EncodingNotSupported hbf (hpart1 env _ v henc hv)

/-- Concrete origin response compressed with the unsupported `br`
encoding and carrying a text content type. -/
def wOriginC : Response :=
  { status := 200,
    headers := [("content-type", HVal.text "text/html; charset=UTF-8"),
      ("content-encoding", HVal.text "br")],
    body := [7, 8] }

/-- Concrete environment dispatching to `wOriginC`. -/
def wEnvC : Env :=
  { send := fun _ => Except.ok wOriginC,
    utf8Valid := fun _ => true,
    gzipDecode := fun _ => none }

/-- Witness for C3: a `Content-Encoding: br` response hits the
unsupported-encoding failure and is returned with its untouched body. -/
theorem unsupported_encoding_explicit_failure_witness :
    decode_original_body wEnvC wOriginC
      = some (Except.error InternalError.EncodingNotSupported)
    ∧ (proxy wEnvC wApp wReqA wActB
        = Outcome.ok (responseAfterHeaders wApp wActB wOriginC) 200
            (baseTrace true 200 ++ [Event.bodyFilterCreate 200, Event.errorLog])
      ∧ (responseAfterHeaders wApp wActB wOriginC).body = wOriginC.body) :=
  ⟨unsupported_encoding_explicit_failure.1 wEnvC wOriginC "br" (by decide)
      (by decide),
    unsupported_encoding_explicit_failure.2 wEnvC wApp wReqA wActB wOriginC
      false wBF "br" (by decide) rfl rfl (by decide) (by decide) rfl
      (by decide) (by decide)⟩


/-- Claim C4: in every request/response cycle the header-filter operation
of the action is called exactly once, with the backend status code
captured before any post-response override — never the already-overridden
status. -/
theorem header_filter_called_once_with_backend_status
    (env : Env) (app : App) (req : Request) (action : Action) (origin : Response)
    (lenv : LogEnv) (rioReq : RioRequest)
    (hsend : env.send = fun _ => Except.ok origin)
    (r : Response) (bsc : Nat) (tr : List Event)
    (hrun : proxy env app req action = Outcome.ok r bsc tr) :
    (tr ++ (logEmit lenv app r bsc rioReq action).2).countP isHeaderFilterEv = 1
    ∧ Event.headerFilter bsc ∈ tr
    ∧ bsc = (if action.get_status_code 0 = 0 then origin.status
             else action.get_status_code 0) := by
  obtain ⟨ae, resp0, d, hae, hresp, hcond⟩ := proxy_ok_inv hrun
  obtain ⟨hbsc, hstat, rest, htr, hhf, hsq, hnd⟩ := respStage_ok_inv hresp
  subst hbsc
  refine ⟨?_, ?_, ?_⟩
  · rw [List.countP_append, htr, List.countP_append, baseTrace_countP_hf, hhf,
      (logEmit_events_small lenv app r resp0.status rioReq action).1]
  · rw [htr]
    exact List.mem_append_left _ (baseTrace_mem_hf d resp0.status)
  · by_cases hz : action.get_status_code 0 = 0
    · rw [if_pos hz] at hcond
      rw [if_pos hz]
      obtain ⟨hd, hsend0⟩ := hcond
      rw [hsend] at hsend0
      simp only [Except.ok.injEq] at hsend0
      rw [hsend0]
    · rw [if_neg hz] at hcond
      rw [if_neg hz]
      obtain ⟨hd, hresp0⟩ := hcond
      rw [hresp0]

/-- Concrete log environment used by the witnesses. -/
def wLogEnv : LogEnv :=
  { now := 0, encodeLogOk := true, logPost := Except.ok () }

/-- Concrete canonical request used by the witnesses. -/
def wRioReq : RioRequest :=
  { url := "http://example.com/", method := some "GET", headers := [],
    remote_addr := none }

/-- Trace produced by the pipeline on the C1/C4 witness inputs. -/
def wTrA : List Event :=
  [Event.statusQuery 0, Event.originDispatch,
    Event.statusQuery 200, Event.headerFilter 200]

/-- Witness for C4 at concrete inputs. -/
theorem header_filter_called_once_with_backend_status_witness :
    (wTrA ++ (logEmit wLogEnv wApp wRespA 200 wRioReq wActA).2).countP
        isHeaderFilterEv = 1
    ∧ Event.headerFilter 200 ∈ wTrA
    ∧ 200 = (if wActA.get_status_code 0 = 0 then wOriginA.status
             else wActA.get_status_code 0) :=
  header_filter_called_once_with_backend_status wEnvA wApp wReqA wActA wOriginA
    wLogEnv wRioReq rfl wRespA 200 wTrA (by decide)

/-- Concrete action overriding every status to 301 before the response,
with no header edit, no body filter and logging declined. -/
def wActE : Action :=
  { get_status_code := fun _ => 301,
    filter_headers := fun hs _ _ => hs,
    create_filter_body := fun _ => none,
    should_log_request := fun _ _ => false }

/-- Concrete environment whose origin dispatch would fail, so that any
accidental dispatch would surface as a transport error. -/
def wEnvE : Env :=
  { send := fun _ => Except.error (),
    utf8Valid := fun _ => true,
    gzipDecode := fun _ => none }

/-- Counterexample to C5 as stated: with `statusOverride(0) = 301` the
worker skips origin dispatch and synthesizes the 301 response, but the
synthesized body is empty — `Response::new()` plus `set_status` attach no
minimal HTML stub mentioning the status. -/
theorem short_circuit_body_not_html_cex :
    proxy wEnvE wApp wReqA wActE
      = Outcome.ok { status := 301, headers := [], body := [] } 301
          [Event.statusQuery 0, Event.statusQuery 301, Event.headerFilter 301]
    ∧ ({ status := 301, headers := [], body := [] } : Response).body = [] :=
  ⟨by decide, rfl⟩

/-- Claim C5 as amended: for every action whose `statusOverride(0)` is
non-zero, the proxy never dispatches to the origin backend and
synthesizes a response with that status whose body is empty (no HTML
stub); the body stays empty whenever the filtered headers do not make the
content-type gate pass. -/
theorem short_circuit_skips_origin_with_empty_body
    (env : Env) (app : App) (req : Request) (action : Action)
    (hpre : action.get_status_code 0 ≠ 0)
    (r : Response) (bsc : Nat) (tr : List Event)
    (hrun : proxy env app req action = Outcome.ok r bsc tr) :
    Event.originDispatch ∉ tr
    ∧ bsc = action.get_status_code 0
    ∧ (ctGate (responseAfterHeaders app action
          { status := action.get_status_code 0, headers := [], body := [] })
            = some false →
       r.body = []) := by
  obtain ⟨ae, resp0, d, hae, hresp, hcond⟩ := proxy_ok_inv hrun
  rw [if_neg hpre] at hcond
  obtain ⟨hd, hresp0⟩ := hcond
  subst hd
  subst hresp0
  obtain ⟨hbsc, hstat, rest, htr, hhf, hsq, hnd⟩ := respStage_ok_inv hresp
  refine ⟨?_, by simpa using hbsc, ?_⟩
  · rw [htr]
    intro hmem
    rcases List.mem_append.mp hmem with hmem | hmem
    · exact baseTrace_no_dispatch _ hmem
    · exact hnd hmem
  · intro hct
    rw [respStage_ok_resp_id (Or.inr hct) hresp, responseAfterHeaders_body]

/-- Witness for the amended C5 at concrete inputs. -/
theorem short_circuit_skips_origin_with_empty_body_witness :
    Event.originDispatch ∉
      [Event.statusQuery 0, Event.statusQuery 301, Event.headerFilter 301]
    ∧ ({ status := 301, headers := [], body := [] } : Response).body = [] := by
  have h := short_circuit_skips_origin_with_empty_body wEnvE wApp wReqA wActE
    (by decide) { status := 301, headers := [], body := [] } 301
    [Event.statusQuery 0, Event.statusQuery 301, Event.headerFilter 301]
    (by decide)
  exact ⟨h.1, h.2.2 (by decide)⟩

/-- Claim C6: both status-override queries are issued in every completed
cycle — the second keyed by the backend status code even when the first
short-circuited — and the final response status equals the second query
result when it is non-zero, else the backend status stands. -/
theorem status_override_precedence
    (env : Env) (app : App) (req : Request) (action : Action)
    (r : Response) (bsc : Nat) (tr : List Event)
    (hrun : proxy env app req action = Outcome.ok r bsc tr) :
    Event.statusQuery 0 ∈ tr
    ∧ Event.statusQuery bsc ∈ tr
    ∧ tr.countP isStatusQueryEv = 2
    ∧ r.status = (if action.get_status_code bsc ≠ 0 then action.get_status_code bsc
                  else bsc) := by
  obtain ⟨ae, resp0, d, hae, hresp, hcond⟩ := proxy_ok_inv hrun
  obtain ⟨hbsc, hstat, rest, htr, hhf, hsq, hnd⟩ := respStage_ok_inv hresp
  subst hbsc
  refine ⟨?_, ?_, ?_, ?_⟩
  · rw [htr]
    exact List.mem_append_left _ (baseTrace_mem_sq0 d resp0.status)
  · rw [htr]
    exact List.mem_append_left _ (baseTrace_mem_sqb d resp0.status)
  · rw [htr, List.countP_append, baseTrace_countP_sq, hsq]
  · rw [hstat, responseAfterHeaders_status]

/-- Concrete action overriding the post-response status to 404 after a
real origin dispatch. -/
def wActF : Action :=
  { get_status_code := fun n => if n = 0 then 0 else 404,
    filter_headers := fun hs _ _ => hs,
    create_filter_body := fun _ => none,
    should_log_request := fun _ _ => true }

/-- Response produced on the C6 witness inputs: origin 200 overridden to
404. -/
def wRespF : Response :=
  { status := 404,
    headers := [("content-type", HVal.text "application/octet-stream")],
    body := [1, 2, 3] }

/-- Witness for C6 at concrete inputs: the origin's 200 is overridden by
the second query's 404, and both queries appear in the trace. -/
theorem status_override_precedence_witness :
    Event.statusQuery 0 ∈ wTrA
    ∧ Event.statusQuery 200 ∈ wTrA
    ∧ wTrA.countP isStatusQueryEv = 2
    ∧ wRespF.status = (if wActF.get_status_code 200 ≠ 0 then wActF.get_status_code 200
                       else 200) :=
  status_override_precedence wEnvA wApp wReqA wActF wRespF 200 wTrA (by decide)

/-- Claim C7: every action-resolution failure — serialization failure,
transport failure, a non-200 decision-service status, or deserialization
failure — yields no action, and the original request is then sent to the
origin untouched, never reaching the filtering pipeline. -/
theorem action_failure_passthrough
    (genv : GetActionEnv) (env : Env) (app : App) (req : Request)
    (hfail : genv.serializeOk = false
      ∨ genv.apiResponse = Except.error ()
      ∨ (∃ ar, genv.apiResponse = Except.ok ar ∧ ar.status ≠ 200)
      ∨ (∃ ar, genv.apiResponse = Except.ok ar ∧ genv.deserialize ar.body = none)) :
    get_action genv = none
    ∧ route genv env app req
        = (match env.send req with
           | Except.error _ => RouteResult.sendErr
           | Except.ok resp => RouteResult.response resp [Event.originDispatch]) := by
  have hnone : get_action genv = none := by
    unfold get_action
    by_cases hsz : genv.serializeOk = false
    · rw [if_pos hsz]
    · rw [if_neg hsz]
      rcases hfail with h | h | ⟨ar, ha, hs⟩ | ⟨ar, ha, hd⟩
      · exact absurd h hsz
      · rw [h]
      · rw [ha]
        simp [hs]
      · rw [ha]
        by_cases hst : ar.status = 200
        · simp [hst, hd]
        · simp [hst]
  refine ⟨hnone, ?_⟩
  unfold route
  rw [hnone]

/-- Concrete action-resolution environment in which serialization of the
canonical request fails. -/
def wGenvG : GetActionEnv :=
  { serializeOk := false,
    apiResponse := Except.ok { status := 200, body := [] },
    deserialize := fun _ => none }

/-- Witness for C7 at concrete inputs: with a failed serialization the
worker sends the untouched original request to the origin. -/
theorem action_failure_passthrough_witness :
    get_action wGenvG = none
    ∧ route wGenvG wEnvA wApp wReqA
        = RouteResult.response wOriginA [Event.originDispatch] :=
  action_failure_passthrough wGenvG wEnvA wApp wReqA (Or.inl rfl)


/-- Concrete inbound request whose `Accept-Encoding` header value is not
valid UTF-8. -/
def wReqBad : Request :=
  { method := "GET", url := "http://example.com/",
    headers := [("accept-encoding", HVal.bytes [255])] }

/-- Claim C8, evaluation at the failing input: contrary to the announced
drop-silently policy, an inbound `Accept-Encoding` header whose value is
not valid UTF-8 makes the proxy panic — the guard
`accept_encoding_value.to_str().unwrap()` (`rio/application.rs` line 160,
likewise `main.rs` line 193) aborts the request instead of dropping the
header.  The same unwrap pattern guards the response `Content-Type`
check. -/
theorem invalid_accept_encoding_header_panics :
    proxy wEnvA wApp wReqBad wActA = Outcome.panic := by
  decide

/-- Claim C9: whenever the action's should-log operation, called with
proxy mode `true`, returns false, the log operation constructs no
`LogRecord` and makes no log network call. -/
theorem no_log_when_declined
    (lenv : LogEnv) (app : App) (resp : Response) (bsc : Nat)
    (rioReq : RioRequest) (action : Action)
    (h : action.should_log_request true bsc = false) :
    logEmit lenv app resp bsc rioReq action = (none, []) := by
  unfold logEmit
  rw [if_pos h]

/-- Witness for C9 at concrete inputs. -/
theorem no_log_when_declined_witness :
    logEmit wLogEnv wApp wOriginA 200 wRioReq wActE = (none, []) :=
  no_log_when_declined wLogEnv wApp wOriginA 200 wRioReq wActE rfl

/-- Claim C10: a gzip-encoded response that passes the body-filtering
gate and is decoded, while the original request's `Accept-Encoding` did
not contain `"gzip"`, comes back with the decoded (filtered, no longer
compressed) body while the `Content-Encoding: gzip` header stays on the
response. -/
theorem gzip_header_kept_on_decoded_body
    (env : Env) (app : App) (req : Request) (action : Action) (origin : Response)
    (bf : BodyFilter) (dec : List Nat)
    (hae : aeGate req = some false)
    (hsend : env.send = fun _ => Except.ok origin)
    (hpre : action.get_status_code 0 = 0)
    (hct : ctGate (responseAfterHeaders app action origin) = some true)
    (hm : req.method ≠ "HEAD")
    (hbf : action.create_filter_body origin.status = some bf)
    (henc : lookupHeader (responseAfterHeaders app action origin).headers
        "content-encoding" = some (HVal.text "gzip"))
    (hgz : env.gzipDecode origin.body = some dec)
    (hutf : env.utf8Valid dec = true) :
    proxy env app req action
      = Outcome.ok
          { responseAfterHeaders app action origin with body := runFilter bf dec }
          origin.status
          (baseTrace true origin.status ++ [Event.bodyFilterCreate origin.status])
    ∧ lookupHeader
        ({ responseAfterHeaders app action origin with
            body := runFilter bf dec }).headers "content-encoding"
        = some (HVal.text "gzip") := by
  have hdec : decode_original_body env (responseAfterHeaders app action origin)
      = some (Except.ok dec) := by
    unfold decode_original_body
    rw [henc]
    simp [responseAfterHeaders_body, hgz, hutf]
  refine ⟨?_, henc⟩
  rw [proxy_dispatch env app req action false origin hae hpre (by rw [hsend])]
  rw [respStage_to_body env app false req.method action origin true hct hm]
  exact bodyStage_decode_ok_noae env action origin.status _ _ bf dec hbf hdec

/-- Concrete gzip-encoded origin response with a text content type. -/
def wOriginD : Response :=
  { status := 200,
    headers := [("content-type", HVal.text "text/html; charset=utf-8"),
      ("content-encoding", HVal.text "gzip")],
    body := [10, 20] }

/-- Concrete environment whose gzip decoder turns `[10, 20]` into the
uncompressed bytes `[60, 112, 62]`. -/
def wEnvD : Env :=
  { send := fun _ => Except.ok wOriginD,
    utf8Valid := fun _ => true,
    gzipDecode := fun b => if b = [10, 20] then some [60, 112, 62] else none }

/-- Concrete request that does not accept gzip. -/
def wReqD : Request :=
  { method := "GET", url := "http://example.com/",
    headers := [("accept-encoding", HVal.text "identity")] }

/-- Witness for C10 at concrete inputs: the body is returned decoded
while the `Content-Encoding: gzip` header stays. -/
theorem gzip_header_kept_on_decoded_body_witness :
    proxy wEnvD wApp wReqD wActB
      = Outcome.ok
          { responseAfterHeaders wApp wActB wOriginD with
              body := runFilter wBF [60, 112, 62] }
          200 (baseTrace true 200 ++ [Event.bodyFilterCreate 200])
    ∧ lookupHeader
        ({ responseAfterHeaders wApp wActB wOriginD with
            body := runFilter wBF [60, 112, 62] }).headers "content-encoding"
        = some (HVal.text "gzip") :=
  gzip_header_kept_on_decoded_body wEnvD wApp wReqD wActB wOriginD wBF
    [60, 112, 62] (by decide) rfl rfl (by decide) (by decide) rfl (by decide)
    (by decide) rfl

end FastlyWorker
